import Mathlib

/-!
Verification of the exception data model and fingerprint algorithm of
`cymbal` (`src/rust/cymbal/src/types/mod.rs`).

The hash context (`Sha512` in the source) is modelled as the stream of
bytes fed to it: `update` appends bytes, and the digest is a deterministic
function of that stream, so two computations feed equal streams iff the
digests agree.  Byte strings of Rust `String`s are modelled as their
character sequences (`String.data`); UTF-8 encoding is injective and
concatenation-compatible character by character, so equalities and
concatenation identities of the char streams coincide with those of the
UTF-8 byte streams.
-/

/-- A JSON value, standing for `serde_json::Value`.  Objects are modelled
as association lists in document order. -/
inductive Json where
  | null : Json
  | bool (b : Bool) : Json
  | num (n : Int) : Json
  | str (s : String) : Json
  | arr (elems : List Json) : Json
  | obj (kvs : List (String × Json)) : Json

/-- Is this JSON value `null`? -/
def Json.isNull : Json → Bool
  | Json.null => true
  | _ => false

/-- Modelled from the spec: the resolved `Frame` type lives in
`crate::frames`, which is outside the given sources.  The spec requires a
resolved frame to expose `resolved : bool`, `in_app : bool`, and a
deterministic canonical byte contribution for hashing; the contribution is
modelled as an opaque byte list. -/
structure Frame where
  resolved : Bool
  in_app : Bool
  bytes : List Char
deriving DecidableEq

/-- Modelled from the spec: `RawFrame` lives in `crate::frames`, outside
the given sources; it is a platform-tagged pre-resolution frame, opaque to
the fingerprint engine.  It is modelled as its carried JSON value. -/
structure RawFrame where
  raw : Json

/-- `Frame::include_in_fingerprint` (modelled from the spec): feed the
frame's canonical bytes to the hash context. -/
def Frame.include_in_fingerprint (f : Frame) (h : List Char) : List Char :=
  h ++ f.bytes

/-- `Mechanism` from `types/mod.rs`. -/
structure Mechanism where
  handled : Option Bool
  mechanism_type : Option String
  source : Option String
  synthetic : Option Bool

/-- `Stacktrace` from `types/mod.rs`: a closed tagged union of a raw
(unresolved) and a resolved stack. -/
inductive Stacktrace where
  | Raw (frames : List RawFrame)
  | Resolved (frames : List Frame)

/-- `Exception` from `types/mod.rs`. -/
structure Exception where
  exception_type : String
  exception_message : String
  mechanism : Option Mechanism
  module : Option String
  thread_id : Option Int
  stack : Option Stacktrace

/-- `ErrProps` from `types/mod.rs`.  `other` (the `#[serde(flatten)]`
catch-all map) is modelled as an association list. -/
structure ErrProps where
  exception_list : Option (List Exception)
  exception_type : Option String
  exception_message : Option String
  exception_stack_trace_raw : Option String
  exception_level : Option String
  other : List (String × Json)

/-- The byte contribution of a Rust `String` (`as_bytes`), modelled at the
character level. -/
def strBytes (s : String) : List Char :=
  s.data

/-- `Exception::include_in_fingerprint` from `types/mod.rs`, translated
statement by statement: always feed type then message bytes; stop unless
the stack is present and resolved; if no frame is in-app, feed only the
first frame (if any); otherwise feed each frame that is in-app and, when
any frame is resolved, itself resolved. -/
def Exception.include_in_fingerprint (e : Exception) (h : List Char) : List Char :=
  let h := h ++ strBytes e.exception_type
  let h := h ++ strBytes e.exception_message
  match e.stack with
  | some (Stacktrace.Resolved frames) =>
    let has_no_resolved := !(frames.any (fun f => f.resolved))
    let has_no_in_app := !(frames.any (fun f => f.in_app))
    if has_no_in_app then
      match frames.head? with
      | some f => f.include_in_fingerprint h
      | none => h
    else
      frames.foldl
        (fun h frame =>
          if (has_no_resolved || frame.resolved) && frame.in_app then
            frame.include_in_fingerprint h
          else h) h
  | _ => h

/-- The whole-event fingerprint stream (modelled from the spec: one hash
context shared across all exceptions, fed in list order). -/
def fingerprint_stream (es : List Exception) : List Char :=
  es.foldl (fun h e => e.include_in_fingerprint h) []

/-- A concrete resolved frame list for the fingerprint witnesses: one
unresolved in-app frame, one resolved library frame, one resolved in-app
frame. -/
def cw1Frames : List Frame :=
  [⟨false, true, ['a']⟩, ⟨true, false, ['b']⟩, ⟨true, true, ['c']⟩]

/-- A concrete exception whose stack is resolved with `cw1Frames`. -/
def cw1Exc : Exception :=
  ⟨"T", "M", none, none, none, some (Stacktrace.Resolved cw1Frames)⟩

/-- A resolved non-in-app frame, head of the no-in-app witnesses. -/
def cw2FrameA : Frame := ⟨true, false, ['a']⟩

/-- An unresolved non-in-app tail frame. -/
def cw2FrameB : Frame := ⟨false, false, ['b']⟩

/-- A mutated version of `cw2FrameB` (different resolution and bytes). -/
def cw2FrameC : Frame := ⟨true, false, ['x']⟩

/-- An exception whose resolved stack has no in-app frame. -/
def cw2Exc : Exception :=
  ⟨"T", "M", none, none, none, some (Stacktrace.Resolved [cw2FrameA, cw2FrameB])⟩

/-- Same as `cw2Exc` but with the second frame mutated. -/
def cw2ExcMut : Exception :=
  ⟨"T", "M", none, none, none, some (Stacktrace.Resolved [cw2FrameA, cw2FrameC])⟩

/-- An exception with no stack at all. -/
def cw3Exc : Exception := ⟨"T", "M", none, none, none, none⟩

/-- An exception with a raw (unresolved) stack. -/
def cw3Raw : Exception :=
  ⟨"T", "M", none, none, none, some (Stacktrace.Raw [⟨Json.str "frame1"⟩])⟩

/-- Same type and message as `cw3Raw` but different raw frames. -/
def cw3RawOther : Exception :=
  ⟨"T", "M", none, none, none, some (Stacktrace.Raw [⟨Json.str "frame2"⟩, ⟨Json.num 3⟩])⟩

/-- Same type, message and stack as `cw1Exc` but with a mechanism, module
and thread id attached. -/
def cw5Exc : Exception :=
  ⟨"T", "M", some ⟨some true, some "generic", none, some false⟩, some "mod", some 7,
    some (Stacktrace.Resolved cw1Frames)⟩

/-- Type "AB", message "C": concatenated contribution "ABC". -/
def cw9a : Exception := ⟨"AB", "C", none, none, none, none⟩

/-- Type "A", message "BC": concatenated contribution "ABC". -/
def cw9b : Exception := ⟨"A", "BC", none, none, none, none⟩

/-- Look up a key in a JSON object's association list (first occurrence,
as `serde_json` sees well-formed objects). -/
def jlookup (kvs : List (String × Json)) (k : String) : Option Json :=
  (kvs.find? (fun q => q.1 == k)).map (fun q => q.2)

/-- Decode a JSON string (serde `String`: anything else, including `null`,
is an error). -/
def getString : Json → Option String
  | Json.str s => some s
  | _ => none

/-- Decode a JSON boolean. -/
def getBool : Json → Option Bool
  | Json.bool b => some b
  | _ => none

/-- Decode a serde `i32`: a JSON number within the signed 32-bit range. -/
def getI32 : Json → Option Int
  | Json.num n => if -2147483648 ≤ n ∧ n ≤ 2147483647 then some n else none
  | _ => none

/-- Decode a JSON array's element list. -/
def getArr : Json → Option (List Json)
  | Json.arr l => some l
  | _ => none

/-- serde semantics for an `Option` field: an absent key or a `null` value
gives `none`; a present non-null value must decode or the whole record
decode fails. -/
def decodeOpt {α : Type} (dec : Json → Option α) (kvs : List (String × Json))
    (k : String) : Option (Option α) :=
  match jlookup kvs k with
  | none => some none
  | some Json.null => some none
  | some v => (dec v).map some

/-- serde sequence semantics: decode every element or fail the whole list
(fail-closed, no partial list). -/
def mapMOpt {α β : Type} (f : α → Option β) : List α → Option (List β)
  | [] => some []
  | x :: xs =>
    match f x, mapMOpt f xs with
    | some y, some ys => some (y :: ys)
    | _, _ => none

/-- Decoding of `Mechanism` (serde derive: all four fields optional,
`mechanism_type` renamed to `type`, unknown keys ignored). -/
def decodeMechanism (j : Json) : Option Mechanism :=
  match j with
  | Json.obj kvs =>
    (decodeOpt getBool kvs "handled").bind fun handled =>
    (decodeOpt getString kvs "type").bind fun mtype =>
    (decodeOpt getString kvs "source").bind fun source =>
    (decodeOpt getBool kvs "synthetic").bind fun synthetic =>
    some ⟨handled, mtype, source, synthetic⟩
  | _ => none

/-- Modelled from the spec: decoding a resolved frame (`crate::frames` is
outside the given sources).  Per the spec a resolved frame carries
`in_app`, a resolution-success indicator, and source-identity fields used
for its canonical byte contribution. -/
def decodeFrame (j : Json) : Option Frame :=
  match j with
  | Json.obj kvs =>
    match jlookup kvs "resolved" with
    | some (Json.bool r) =>
      match jlookup kvs "in_app" with
      | some (Json.bool a) =>
        match jlookup kvs "ident" with
        | some (Json.str s) => some ⟨r, a, strBytes s⟩
        | _ => none
      | _ => none
    | _ => none
  | _ => none

/-- Modelled from the spec: a raw frame is platform-tagged and opaque to
this core; it is carried through decoding unexamined. -/
def decodeRawFrame (j : Json) : Option RawFrame :=
  some ⟨j⟩

/-- Decoding of `Stacktrace` (serde internally tagged enum: tag field
`type` with lower-cased variant names, then the variant's `frames`
field). -/
def decodeStacktrace (j : Json) : Option Stacktrace :=
  match j with
  | Json.obj kvs =>
    match jlookup kvs "type" with
    | some (Json.str tag) =>
      match jlookup kvs "frames" with
      | some (Json.arr fjs) =>
        if tag = "raw" then
          match mapMOpt decodeRawFrame fjs with
          | some fs => some (Stacktrace.Raw fs)
          | none => none
        else if tag = "resolved" then
          match mapMOpt decodeFrame fjs with
          | some fs => some (Stacktrace.Resolved fs)
          | none => none
        else none
      | _ => none
    | _ => none
  | _ => none

/-- Decoding of `Exception` (serde derive: required `type` and `value`
strings, optional `mechanism`, `module`, `thread_id`, `stacktrace`;
unknown keys ignored). -/
def decodeException (j : Json) : Option Exception :=
  match j with
  | Json.obj kvs =>
    ((jlookup kvs "type").bind getString).bind fun t =>
    ((jlookup kvs "value").bind getString).bind fun v =>
    (decodeOpt decodeMechanism kvs "mechanism").bind fun mech =>
    (decodeOpt getString kvs "module").bind fun md =>
    (decodeOpt getI32 kvs "thread_id").bind fun tid =>
    (decodeOpt decodeStacktrace kvs "stacktrace").bind fun st =>
    some ⟨t, v, mech, md, tid, st⟩
  | _ => none

/-- Decoding of the `$exception_list` value: a JSON array whose every
element decodes as an `Exception`. -/
def decodeExcList (j : Json) : Option (List Exception) :=
  match j with
  | Json.arr l => mapMOpt decodeException l
  | _ => none

/-- The five explicitly modelled (renamed) `ErrProps` keys; everything
else is flattened into `other`. -/
def errPropsKnownKeys : List String :=
  ["$exception_list", "$exception_type", "$exception_message",
   "$exception_stack_trace_raw", "$exception_level"]

/-- Decoding of `ErrProps` (serde derive with a flattened catch-all map):
the five known keys decode into their fields, every other key is copied
verbatim into `other`. -/
def decodeErrProps (j : Json) : Option ErrProps :=
  match j with
  | Json.obj kvs =>
    (decodeOpt decodeExcList kvs "$exception_list").bind fun list =>
    (decodeOpt getString kvs "$exception_type").bind fun ty =>
    (decodeOpt getString kvs "$exception_message").bind fun msg =>
    (decodeOpt getString kvs "$exception_stack_trace_raw").bind fun stray =>
    (decodeOpt getString kvs "$exception_level").bind fun lvl =>
    some ⟨list, ty, msg, stray, lvl,
      kvs.filter (fun q => !(errPropsKnownKeys.contains q.1))⟩
  | _ => none

/-- Serialization of `Mechanism` as its emitted key-value list, in field
order (serde derive: every field has `skip_serializing_if = Option::is_none`,
`mechanism_type` is renamed to `type`). -/
def encodeMechanism (m : Mechanism) : List (String × Json) :=
  (match m.handled with | some b => [("handled", Json.bool b)] | none => [])
    ++ (match m.mechanism_type with | some s => [("type", Json.str s)] | none => [])
    ++ (match m.source with | some s => [("source", Json.str s)] | none => [])
    ++ (match m.synthetic with | some b => [("synthetic", Json.bool b)] | none => [])

/-- Modelled from the spec: serialization of a resolved frame. -/
def encodeFrame (f : Frame) : Json :=
  Json.obj [("resolved", Json.bool f.resolved), ("in_app", Json.bool f.in_app),
    ("ident", Json.str (String.mk f.bytes))]

/-- Modelled from the spec: a raw frame serializes back to its carried
JSON value. -/
def encodeRawFrame (r : RawFrame) : Json :=
  r.raw

/-- Serialization of `Stacktrace` (internally tagged, lower-cased tag). -/
def encodeStacktrace : Stacktrace → Json
  | Stacktrace.Raw fs =>
    Json.obj [("type", Json.str "raw"), ("frames", Json.arr (fs.map encodeRawFrame))]
  | Stacktrace.Resolved fs =>
    Json.obj [("type", Json.str "resolved"), ("frames", Json.arr (fs.map encodeFrame))]

/-- Serialization of `Exception`: `type`, `value` and `mechanism` are
always emitted (`mechanism` has no skip attribute), the remaining
options are skipped when unset. -/
def encodeException (e : Exception) : Json :=
  Json.obj
    ([("type", Json.str e.exception_type), ("value", Json.str e.exception_message),
      ("mechanism",
        match e.mechanism with
        | some m => Json.obj (encodeMechanism m)
        | none => Json.null)]
      ++ (match e.module with | some s => [("module", Json.str s)] | none => [])
      ++ (match e.thread_id with | some n => [("thread_id", Json.num n)] | none => [])
      ++ (match e.stack with | some st => [("stacktrace", encodeStacktrace st)] | none => []))

/-- The struct-field part of `ErrProps` serialization, in field order:
`$exception_list` and `$exception_level` carry no skip attribute and are
emitted even when unset (as `null`); the three legacy fields are skipped
when unset. -/
def errPropsFields (p : ErrProps) : List (String × Json) :=
  ("$exception_list",
      match p.exception_list with
      | some l => Json.arr (l.map encodeException)
      | none => Json.null)
    :: ((match p.exception_type with
          | some s => [("$exception_type", Json.str s)] | none => [])
      ++ (match p.exception_message with
          | some s => [("$exception_message", Json.str s)] | none => [])
      ++ (match p.exception_stack_trace_raw with
          | some s => [("$exception_stack_trace_raw", Json.str s)] | none => [])
      ++ [("$exception_level",
            match p.exception_level with
            | some s => Json.str s
            | none => Json.null)])

/-- Full `ErrProps` serialization: the struct fields followed by the
flattened `other` entries. -/
def encodeErrProps (p : ErrProps) : List (String × Json) :=
  errPropsFields p ++ p.other

/-- An exception-list element missing its required `value` field. -/
def cw4BadElem : Json := Json.obj [("type", Json.str "X")]

/-- A property object whose exception list contains `cw4BadElem`. -/
def cw4Kvs : List (String × Json) := [("$exception_list", Json.arr [cw4BadElem])]

/-- The `ErrProps` decoded from a property object carrying only an empty
exception list. -/
def cw4EmptyProps : ErrProps := ⟨some [], none, none, none, none, []⟩

/-- An exception JSON carrying empty `type` and `value` strings. -/
def c7Json : Json := Json.obj [("type", Json.str ""), ("value", Json.str "")]

/-- The exception decoded from `c7Json`: both required fields present but
empty. -/
def c7Exc : Exception := ⟨"", "", none, none, none, none⟩

/-- A property object with one unknown key next to an empty exception
list. -/
def cw6Kvs : List (String × Json) :=
  [("$exception_list", Json.arr []), ("distinct_id", Json.str "u1")]

/-- The `ErrProps` decoded from `cw6Kvs`. -/
def cw6Props : ErrProps :=
  ⟨some [], none, none, none, none, [("distinct_id", Json.str "u1")]⟩

/-- The `ErrProps` decoded from the empty JSON object. -/
def cw10Props : ErrProps := ⟨none, none, none, none, none, []⟩

theorem foldl_include_eq_flatten (p : Frame → Bool) (l : List Frame) (h : List Char) :
    l.foldl (fun h f => if p f then f.include_in_fingerprint h else h) h
      = h ++ ((l.filter p).map Frame.bytes).flatten := by
  induction l generalizing h with
  | nil => simp
  | cons f t ih =>
    simp only [List.foldl_cons, List.filter_cons]
    by_cases hp : p f = true
    · rw [if_pos hp, ih]
      simp [Frame.include_in_fingerprint, List.append_assoc, hp]
    · simp [hp, ih]

theorem include_eq_base_of_unresolved_stack (e : Exception) (h : List Char)
    (hs : e.stack = none ∨ ∃ rfs, e.stack = some (Stacktrace.Raw rfs)) :
    e.include_in_fingerprint h
      = h ++ strBytes e.exception_type ++ strBytes e.exception_message := by
  rcases hs with h0 | ⟨rfs, h0⟩ <;> simp [Exception.include_in_fingerprint, h0]

/-- C1: when the stack is `Resolved` with frame list `F` containing at
least one in-app frame, the contribution after the type and message bytes
is exactly the frames of `F`, in order, that are in-app and (no frame of
`F` is resolved, or the frame itself is resolved); in-app-false frames
never contribute. -/
theorem fingerprint_resolved_any_in_app (e : Exception) (fs : List Frame) (h : List Char)
    (hst : e.stack = some (Stacktrace.Resolved fs))
    (hin : fs.any (fun f => f.in_app) = true) :
    e.include_in_fingerprint h
      = h ++ strBytes e.exception_type ++ strBytes e.exception_message
          ++ ((fs.filter (fun f =>
                f.in_app && (!(fs.any (fun g => g.resolved)) || f.resolved))).map
                Frame.bytes).flatten := by
  simp only [Exception.include_in_fingerprint, hst]
  simp only [hin, Bool.not_true, Bool.false_eq_true, if_false]
  rw [foldl_include_eq_flatten]
  have hfil :
      fs.filter (fun frame =>
          ((!(fs.any (fun f => f.resolved))) || frame.resolved) && frame.in_app)
        = fs.filter (fun f =>
            f.in_app && (!(fs.any (fun g => g.resolved)) || f.resolved)) := by
    apply List.filter_congr
    intro f _
    exact Bool.and_comm _ _
  rw [hfil]

theorem fingerprint_resolved_any_in_app_witness :
    cw1Exc.stack = some (Stacktrace.Resolved cw1Frames) ∧
    cw1Frames.any (fun f => f.in_app) = true ∧
    cw1Exc.include_in_fingerprint []
      = [] ++ strBytes "T" ++ strBytes "M"
          ++ ((cw1Frames.filter (fun f =>
                f.in_app && (!(cw1Frames.any (fun g => g.resolved)) || f.resolved))).map
                Frame.bytes).flatten :=
  ⟨rfl, by decide, fingerprint_resolved_any_in_app cw1Exc cw1Frames [] rfl (by decide)⟩

/-- C2: when the stack is `Resolved` with frame list `F` in which no frame
is in-app, only the first frame of `F` (if any) contributes after the type
and message bytes, regardless of its resolved flag, and mutating any later
frame leaves the contribution unchanged. -/
theorem fingerprint_no_in_app_first_frame_only :
    (∀ (e : Exception) (fs : List Frame) (h : List Char),
        e.stack = some (Stacktrace.Resolved fs) →
        fs.all (fun f => !f.in_app) = true →
        e.include_in_fingerprint h
          = h ++ strBytes e.exception_type ++ strBytes e.exception_message
              ++ (match fs.head? with | some f => f.bytes | none => [])) ∧
    (∀ (e e' : Exception) (f : Frame) (fs fs' : List Frame) (h : List Char),
        e.exception_type = e'.exception_type →
        e.exception_message = e'.exception_message →
        e.stack = some (Stacktrace.Resolved (f :: fs)) →
        e'.stack = some (Stacktrace.Resolved (f :: fs')) →
        (f :: fs).all (fun g => !g.in_app) = true →
        (f :: fs').all (fun g => !g.in_app) = true →
        e.include_in_fingerprint h = e'.include_in_fingerprint h) := by
  have part1 : ∀ (e : Exception) (fs : List Frame) (h : List Char),
      e.stack = some (Stacktrace.Resolved fs) →
      fs.all (fun f => !f.in_app) = true →
      e.include_in_fingerprint h
        = h ++ strBytes e.exception_type ++ strBytes e.exception_message
            ++ (match fs.head? with | some f => f.bytes | none => []) := by
    intro e fs h hst hall
    have hany : fs.any (fun f => f.in_app) = false := by
      rw [List.any_eq_false]
      intro f hf
      have hx := List.all_eq_true.mp hall f hf
      simpa using hx
    simp only [Exception.include_in_fingerprint, hst]
    simp only [hany, Bool.not_false, if_true]
    cases fs with
    | nil => simp
    | cons f t => simp [Frame.include_in_fingerprint]
  refine ⟨part1, ?_⟩
  intro e e' f fs fs' h ht hm hst hst' hall hall'
  rw [part1 e (f :: fs) h hst hall, part1 e' (f :: fs') h hst' hall', ht, hm]
  simp

theorem fingerprint_no_in_app_first_frame_only_witness :
    cw2Exc.stack = some (Stacktrace.Resolved [cw2FrameA, cw2FrameB]) ∧
    ([cw2FrameA, cw2FrameB].all (fun f => !f.in_app) = true) ∧
    cw2Exc.include_in_fingerprint []
      = [] ++ strBytes "T" ++ strBytes "M" ++ cw2FrameA.bytes ∧
    cw2ExcMut.include_in_fingerprint [] = cw2Exc.include_in_fingerprint [] :=
  ⟨rfl, by decide,
    fingerprint_no_in_app_first_frame_only.1 cw2Exc [cw2FrameA, cw2FrameB] [] rfl (by decide),
    fingerprint_no_in_app_first_frame_only.2 cw2ExcMut cw2Exc cw2FrameA [cw2FrameC] [cw2FrameB]
      [] rfl rfl rfl rfl (by decide) (by decide)⟩

/-- C3: when the stack is absent or raw, the contribution is exactly the
type bytes followed by the message bytes; two such exceptions with equal
type and message contribute identically whatever their raw frames are. -/
theorem fingerprint_raw_or_missing_stack :
    (∀ (e : Exception) (h : List Char),
        (e.stack = none ∨ ∃ rfs, e.stack = some (Stacktrace.Raw rfs)) →
        e.include_in_fingerprint h
          = h ++ strBytes e.exception_type ++ strBytes e.exception_message) ∧
    (∀ (e e' : Exception) (h : List Char),
        e.exception_type = e'.exception_type →
        e.exception_message = e'.exception_message →
        (e.stack = none ∨ ∃ rfs, e.stack = some (Stacktrace.Raw rfs)) →
        (e'.stack = none ∨ ∃ rfs, e'.stack = some (Stacktrace.Raw rfs)) →
        e.include_in_fingerprint h = e'.include_in_fingerprint h) := by
  refine ⟨fun e h hs => include_eq_base_of_unresolved_stack e h hs, ?_⟩
  intro e e' h ht hm hs hs'
  rw [include_eq_base_of_unresolved_stack e h hs,
    include_eq_base_of_unresolved_stack e' h hs', ht, hm]

theorem fingerprint_raw_or_missing_stack_witness :
    cw3Exc.include_in_fingerprint [] = [] ++ strBytes "T" ++ strBytes "M" ∧
    cw3Raw.include_in_fingerprint [] = cw3RawOther.include_in_fingerprint [] :=
  ⟨fingerprint_raw_or_missing_stack.1 cw3Exc [] (Or.inl rfl),
    fingerprint_raw_or_missing_stack.2 cw3Raw cw3RawOther [] rfl rfl
      (Or.inr ⟨_, rfl⟩) (Or.inr ⟨_, rfl⟩)⟩

/-- C5: the per-exception contribution is a deterministic function of the
type, message and stack (in particular mechanism, module and thread id are
irrelevant): equal inputs feed equal byte streams to the hash context. -/
theorem fingerprint_contribution_deterministic (e₁ e₂ : Exception) (h : List Char)
    (ht : e₁.exception_type = e₂.exception_type)
    (hm : e₁.exception_message = e₂.exception_message)
    (hs : e₁.stack = e₂.stack) :
    e₁.include_in_fingerprint h = e₂.include_in_fingerprint h := by
  simp only [Exception.include_in_fingerprint, ht, hm, hs]

theorem fingerprint_contribution_deterministic_witness :
    cw1Exc.exception_type = cw5Exc.exception_type ∧
    cw1Exc.exception_message = cw5Exc.exception_message ∧
    cw1Exc.stack = cw5Exc.stack ∧
    cw1Exc.include_in_fingerprint [] = cw5Exc.include_in_fingerprint [] :=
  ⟨rfl, rfl, rfl, fingerprint_contribution_deterministic cw1Exc cw5Exc [] rfl rfl rfl⟩

/-- C9: type and message are hashed as an unseparated concatenation: two
exceptions without a contributing stack whose concatenated type-and-message
byte strings agree contribute identically, even when the fields differ. -/
theorem fingerprint_type_message_concat_ambiguity (e₁ e₂ : Exception) (h : List Char)
    (h₁ : e₁.stack = none ∨ ∃ rfs, e₁.stack = some (Stacktrace.Raw rfs))
    (h₂ : e₂.stack = none ∨ ∃ rfs, e₂.stack = some (Stacktrace.Raw rfs))
    (hcat : strBytes e₁.exception_type ++ strBytes e₁.exception_message
          = strBytes e₂.exception_type ++ strBytes e₂.exception_message) :
    e₁.include_in_fingerprint h = e₂.include_in_fingerprint h := by
  rw [include_eq_base_of_unresolved_stack e₁ h h₁,
    include_eq_base_of_unresolved_stack e₂ h h₂,
    List.append_assoc, List.append_assoc, hcat]

theorem fingerprint_type_message_concat_ambiguity_witness :
    cw9a.exception_type ≠ cw9b.exception_type ∧
    strBytes cw9a.exception_type ++ strBytes cw9a.exception_message
      = strBytes cw9b.exception_type ++ strBytes cw9b.exception_message ∧
    cw9a.include_in_fingerprint [] = cw9b.include_in_fingerprint [] :=
  ⟨by decide, by decide,
    fingerprint_type_message_concat_ambiguity cw9a cw9b []
      (Or.inl rfl) (Or.inl rfl) (by decide)⟩

theorem mapMOpt_eq_none {α β : Type} (f : α → Option β) {x : α} (l : List α)
    (hx : x ∈ l) (hfx : f x = none) : mapMOpt f l = none := by
  induction l with
  | nil => cases hx
  | cons y ys ih =>
    rcases List.mem_cons.mp hx with h | h
    · subst h
      cases hm : mapMOpt f ys <;> simp [mapMOpt, hfx, hm]
    · cases hfy : f y <;> simp [mapMOpt, hfy, ih h]

theorem getString_inv (j : Json) (s : String) (h : getString j = some s) :
    j = Json.str s := by
  cases j <;> simp_all [getString]

theorem decodeErrProps_other (kvs : List (String × Json)) (p : ErrProps)
    (hdec : decodeErrProps (Json.obj kvs) = some p) :
    p.other = kvs.filter (fun q => !(errPropsKnownKeys.contains q.1)) := by
  simp only [decodeErrProps] at hdec
  rw [Option.bind_eq_some] at hdec
  obtain ⟨list, h1, hdec⟩ := hdec
  rw [Option.bind_eq_some] at hdec
  obtain ⟨ty, h2, hdec⟩ := hdec
  rw [Option.bind_eq_some] at hdec
  obtain ⟨msg, h3, hdec⟩ := hdec
  rw [Option.bind_eq_some] at hdec
  obtain ⟨stray, h4, hdec⟩ := hdec
  rw [Option.bind_eq_some] at hdec
  obtain ⟨lvl, h5, hdec⟩ := hdec
  rw [Option.some_inj] at hdec
  rw [← hdec]

/-- C4: decoding `ErrProps` is fail-closed over the exception list: with
`$exception_list` present, an element missing `type` or `value` fails the
whole decode, while an empty array decodes to zero exceptions. -/
theorem errprops_decode_fail_closed :
    (∀ (kvs : List (String × Json)) (elems : List Json) (j : Json)
        (ekvs : List (String × Json)),
        jlookup kvs "$exception_list" = some (Json.arr elems) →
        j ∈ elems →
        j = Json.obj ekvs →
        (jlookup ekvs "type" = none ∨ jlookup ekvs "value" = none) →
        decodeErrProps (Json.obj kvs) = none) ∧
    decodeErrProps (Json.obj [("$exception_list", Json.arr [])]) = some cw4EmptyProps := by
  constructor
  · intro kvs elems j ekvs hlook hmem hobj hmiss
    have hexc : decodeException j = none := by
      subst hobj
      rcases hmiss with hm | hm
      · simp [decodeException, hm]
      · cases htl : jlookup ekvs "type" with
        | none => simp [decodeException, htl]
        | some jv => cases jv <;> simp [decodeException, getString, htl, hm]
    have hlist : decodeExcList (Json.arr elems) = none := by
      simp only [decodeExcList]
      exact mapMOpt_eq_none decodeException elems hmem hexc
    simp [decodeErrProps, decodeOpt, hlook, hlist]
  · rfl

theorem errprops_decode_fail_closed_witness :
    jlookup cw4Kvs "$exception_list" = some (Json.arr [cw4BadElem]) ∧
    cw4BadElem ∈ [cw4BadElem] ∧
    cw4BadElem = Json.obj [("type", Json.str "X")] ∧
    jlookup [("type", Json.str "X")] "value" = none ∧
    decodeErrProps (Json.obj cw4Kvs) = none :=
  ⟨rfl, List.mem_cons_self _ _, rfl, rfl,
    errprops_decode_fail_closed.1 cw4Kvs [cw4BadElem] cw4BadElem [("type", Json.str "X")]
      rfl (List.mem_cons_self _ _) rfl (Or.inr rfl)⟩

/-- C6: every top-level key of a decoded object that is not one of the
five modelled keys is stored verbatim in `other` and re-emitted with its
original value by serialization. -/
theorem errprops_unknown_key_preserved (kvs : List (String × Json)) (p : ErrProps)
    (k : String) (v : Json)
    (hdec : decodeErrProps (Json.obj kvs) = some p)
    (hmem : (k, v) ∈ kvs)
    (hunk : errPropsKnownKeys.contains k = false) :
    (k, v) ∈ p.other ∧ (k, v) ∈ encodeErrProps p := by
  have hother := decodeErrProps_other kvs p hdec
  have hmo : (k, v) ∈ p.other := by
    rw [hother]
    refine List.mem_filter.mpr ⟨hmem, ?_⟩
    simp only [Bool.not_eq_true']
    exact hunk
  refine ⟨hmo, ?_⟩
  simp only [encodeErrProps, List.mem_append]
  exact Or.inr hmo

theorem errprops_unknown_key_preserved_witness :
    decodeErrProps (Json.obj cw6Kvs) = some cw6Props ∧
    ("distinct_id", Json.str "u1") ∈ cw6Kvs ∧
    errPropsKnownKeys.contains "distinct_id" = false ∧
    ("distinct_id", Json.str "u1") ∈ cw6Props.other ∧
    ("distinct_id", Json.str "u1") ∈ encodeErrProps cw6Props := by
  have hmem : ("distinct_id", Json.str "u1") ∈ cw6Kvs :=
    List.mem_cons_of_mem _ (List.mem_cons_self _ _)
  have h := errprops_unknown_key_preserved cw6Kvs cw6Props "distinct_id" (Json.str "u1")
    rfl hmem rfl
  exact ⟨rfl, hmem, rfl, h.1, h.2⟩

/-- C7 (amended): every successfully decoded `Exception` comes from an
object carrying `type` and `value` as JSON strings (decode fails when
either is missing), but the strings themselves may be empty. -/
theorem exception_decode_requires_type_value (j : Json) (e : Exception)
    (hdec : decodeException j = some e) :
    ∃ kvs, j = Json.obj kvs ∧
      jlookup kvs "type" = some (Json.str e.exception_type) ∧
      jlookup kvs "value" = some (Json.str e.exception_message) := by
  cases j with
  | obj kvs =>
    refine ⟨kvs, rfl, ?_⟩
    simp only [decodeException] at hdec
    rw [Option.bind_eq_some] at hdec
    obtain ⟨t, ht, hdec⟩ := hdec
    rw [Option.bind_eq_some] at ht
    obtain ⟨jt, hjt, hgt⟩ := ht
    rw [Option.bind_eq_some] at hdec
    obtain ⟨v, hv, hdec⟩ := hdec
    rw [Option.bind_eq_some] at hv
    obtain ⟨jv, hjv, hgv⟩ := hv
    rw [Option.bind_eq_some] at hdec
    obtain ⟨mech, _, hdec⟩ := hdec
    rw [Option.bind_eq_some] at hdec
    obtain ⟨md, _, hdec⟩ := hdec
    rw [Option.bind_eq_some] at hdec
    obtain ⟨tid, _, hdec⟩ := hdec
    rw [Option.bind_eq_some] at hdec
    obtain ⟨st, _, hdec⟩ := hdec
    rw [Option.some_inj] at hdec
    rw [← hdec]
    rw [getString_inv jt t hgt] at hjt
    rw [getString_inv jv v hgv] at hjv
    exact ⟨hjt, hjv⟩
  | null => exact absurd hdec (by simp [decodeException])
  | bool b => exact absurd hdec (by simp [decodeException])
  | num n => exact absurd hdec (by simp [decodeException])
  | str s => exact absurd hdec (by simp [decodeException])
  | arr l => exact absurd hdec (by simp [decodeException])

theorem exception_decode_requires_type_value_witness :
    decodeException c7Json = some c7Exc ∧
    ∃ kvs, c7Json = Json.obj kvs ∧
      jlookup kvs "type" = some (Json.str c7Exc.exception_type) ∧
      jlookup kvs "value" = some (Json.str c7Exc.exception_message) :=
  ⟨rfl, exception_decode_requires_type_value c7Json c7Exc rfl⟩

theorem exception_decode_accepts_empty_strings :
    decodeException c7Json = some c7Exc ∧
    c7Exc.exception_type = "" ∧
    c7Exc.exception_message = "" :=
  ⟨rfl, rfl, rfl⟩

/-- C8: `Mechanism` serialization emits a field exactly when it is set and
never emits a `null` placeholder for any of the four fields. -/
theorem mechanism_serialization_skips_none (m : Mechanism) :
    jlookup (encodeMechanism m) "handled" = Option.map Json.bool m.handled ∧
    jlookup (encodeMechanism m) "type" = Option.map Json.str m.mechanism_type ∧
    jlookup (encodeMechanism m) "source" = Option.map Json.str m.source ∧
    jlookup (encodeMechanism m) "synthetic" = Option.map Json.bool m.synthetic ∧
    (encodeMechanism m).all (fun q => !(q.2.isNull)) = true := by
  obtain ⟨h, t, s, y⟩ := m
  cases h <;> cases t <;> cases s <;> cases y <;>
    exact ⟨rfl, rfl, rfl, rfl, rfl⟩

/-- C10: `ErrProps` serialization always emits `$exception_list` and
`$exception_level`, as `null` when unset, while the three legacy fields
are omitted when unset; hence decode-then-encode of the empty object is
not the empty object. -/
theorem errprops_serialization_null_fields (p : ErrProps) :
    jlookup (errPropsFields p) "$exception_list"
      = some (match p.exception_list with
              | some l => Json.arr (l.map encodeException)
              | none => Json.null) ∧
    jlookup (errPropsFields p) "$exception_level"
      = some (match p.exception_level with
              | some s => Json.str s
              | none => Json.null) ∧
    jlookup (errPropsFields p) "$exception_type" = Option.map Json.str p.exception_type ∧
    jlookup (errPropsFields p) "$exception_message"
      = Option.map Json.str p.exception_message ∧
    jlookup (errPropsFields p) "$exception_stack_trace_raw"
      = Option.map Json.str p.exception_stack_trace_raw ∧
    encodeErrProps p = errPropsFields p ++ p.other ∧
    decodeErrProps (Json.obj []) = some cw10Props ∧
    encodeErrProps cw10Props
      = [("$exception_list", Json.null), ("$exception_level", Json.null)] := by
  obtain ⟨l, t, m, r, v, o⟩ := p
  cases l <;> cases t <;> cases m <;> cases r <;> cases v <;>
    exact ⟨rfl, rfl, rfl, rfl, rfl, rfl, rfl, rfl⟩
